import Mathlib

/-!
Verification of the TCP port scanner and course-prerequisite lookup
(`port_scan.py`, `db.py`, `model.py`).

The network is external to the program, so it is modelled as an oracle
`net : String → Nat → Except SockErr Unit`: the result of the TCP connect
attempt made for the port at a given 0-based position of the port list of a
given host.  `Except.ok ()` means the connect succeeded; `Except.error e`
means the connect raised one of the transport errors, all of which are
subclasses of `socket.error` in Python and hence caught by the
`except socket.error:` clause of `scan_ports`.  Wall-clock durations are
likewise external and passed in as nonnegative rationals.
-/

set_option autoImplicit false

/-- The transport-level failures a single connect attempt can raise.
Every one of them is a subclass of `socket.error` in Python. -/
inductive SockErr : Type where
  | refused
  | timedOut
  | unreachable
  | dnsFailure
  deriving DecidableEq, Repr

/-- Per-attempt classification: `Open` for a successful TCP connect,
`Unreachable` for any caught `socket.error`. -/
inductive PortOutcome : Type where
  | Open
  | Unreachable
  deriving DecidableEq, Repr

/-- The mutable locals of the `for port in ports` loop of `scan_ports`
(`port_scan.py` lines 8-12): the `open_ports` list and the `attempts`
and `errors` counters. -/
structure LoopState : Type where
  open_ports : List Nat
  attempts : Nat
  errors : Nat
  deriving DecidableEq, Repr

/-- The probe loop of `scan_ports` (`port_scan.py` lines 14-29), as a
function of the network oracle.  The argument `i` is the 0-based position of
the next port to probe; the attempt for the port at position `i` succeeds or
fails according to `net i`.  On success the port is appended to
`open_ports`; on failure `errors` is incremented; `attempts` is incremented
for every element. -/
def runLoop (net : Nat → Except SockErr Unit) : Nat → List Nat → LoopState
  | _, [] => ⟨[], 0, 0⟩
  | i, p :: rest =>
      let st := runLoop net (i + 1) rest
      match net i with
      | Except.ok _ => ⟨p :: st.open_ports, st.attempts + 1, st.errors⟩
      | Except.error _ => ⟨st.open_ports, st.attempts + 1, st.errors + 1⟩

/-- The `stats` dictionary built by `scan_ports` (`port_scan.py` lines
32-38).  `closed_ports` is an integer because the source computes it as
`errors - len(open_ports)`, which can be negative. -/
structure HostScanStats : Type where
  total_ports : Nat
  open_ports : Nat
  closed_ports : Int
  scan_duration : Rat
  ports_per_second : Rat
  deriving DecidableEq, Repr

/-- `scan_ports(host, ports)` from `port_scan.py` lines 7-40, parametrised
by the network oracle `net` (indexed by host and attempt position) and by
the measured wall-clock duration `scan_duration` of the loop.  Returns the
`(open_ports, stats)` pair exactly as the source builds it, including the
literal `errors - len(open_ports)` formula for `closed_ports` and the
guarded division for `ports_per_second`. -/
def scan_ports (net : String → Nat → Except SockErr Unit) (host : String)
    (ports : List Nat) (scan_duration : Rat) : List Nat × HostScanStats :=
  let st := runLoop (net host) 0 ports
  (st.open_ports,
    { total_ports := st.attempts
      open_ports := st.open_ports.length
      closed_ports := (st.errors : Int) - (st.open_ports.length : Int)
      scan_duration := scan_duration
      ports_per_second :=
        if 0 < scan_duration then (st.attempts : Rat) / scan_duration else 0 })

/-- The classification of each attempt of the probe loop, in probe order:
the attempt at position `i` is `Open` when `net i` succeeds and
`Unreachable` otherwise (the flat error taxonomy of the source: every
caught `socket.error` is folded into one category). -/
def classifyAttempts (net : Nat → Except SockErr Unit) : Nat → List Nat → List PortOutcome
  | _, [] => []
  | i, _ :: rest =>
      (match net i with
       | Except.ok _ => PortOutcome.Open
       | Except.error _ => PortOutcome.Unreachable) :: classifyAttempts net (i + 1) rest

/-- Number of occurrences of a given outcome in a classification list. -/
def countOutcome (o : PortOutcome) : List PortOutcome → Nat
  | [] => 0
  | x :: rest => (if x = o then 1 else 0) + countOutcome o rest

-- Basic lemmas about the probe loop, shared by several claims.

theorem runLoop_attempts (net : Nat → Except SockErr Unit) :
    ∀ (i : Nat) (ports : List Nat), (runLoop net i ports).attempts = ports.length := by
  intro i ports
  induction ports generalizing i with
  | nil => rfl
  | cons p rest ih =>
      simp only [runLoop, List.length_cons]
      cases net i <;> simp [ih]

theorem runLoop_partition (net : Nat → Except SockErr Unit) :
    ∀ (i : Nat) (ports : List Nat),
      (runLoop net i ports).attempts
        = (runLoop net i ports).open_ports.length + (runLoop net i ports).errors := by
  intro i ports
  induction ports generalizing i with
  | nil => rfl
  | cons p rest ih =>
      simp only [runLoop]
      cases net i <;> simp [ih i.succ] <;> omega

theorem classifyAttempts_length (net : Nat → Except SockErr Unit) :
    ∀ (i : Nat) (ports : List Nat), (classifyAttempts net i ports).length = ports.length := by
  intro i ports
  induction ports generalizing i with
  | nil => rfl
  | cons p rest ih => simp [classifyAttempts, ih]

theorem countOutcome_total :
    ∀ l : List PortOutcome,
      countOutcome PortOutcome.Open l + countOutcome PortOutcome.Unreachable l = l.length := by
  intro l
  induction l with
  | nil => rfl
  | cons x rest ih => cases x <;> simp [countOutcome, ih] <;> omega

/-- The open-port list the loop accumulates is exactly the ports of the
input paired with an `Open` classification, in probe order. -/
theorem runLoop_open_eq_filter (net : Nat → Except SockErr Unit) :
    ∀ (i : Nat) (ports : List Nat),
      (runLoop net i ports).open_ports
        = ((ports.zip (classifyAttempts net i ports)).filter
            (fun x => x.2 = PortOutcome.Open)).map Prod.fst := by
  intro i ports
  induction ports generalizing i with
  | nil => rfl
  | cons p rest ih =>
      simp only [runLoop, classifyAttempts, List.zip_cons_cons]
      cases net i <;> simp [List.filter_cons, ih (i + 1)]

/-- The open-port list is a sublist (order-preserving subsequence) of the
input ports. -/
theorem runLoop_open_sublist (net : Nat → Except SockErr Unit) (i : Nat) (ports : List Nat) :
    (runLoop net i ports).open_ports.Sublist ports := by
  rw [runLoop_open_eq_filter net i ports]
  have h1 : ((ports.zip (classifyAttempts net i ports)).filter
      (fun x => x.2 = PortOutcome.Open)).Sublist (ports.zip (classifyAttempts net i ports)) :=
    List.filter_sublist _
  have h2 := h1.map Prod.fst
  have h3 : (ports.zip (classifyAttempts net i ports)).map Prod.fst = ports := by
    apply List.map_fst_zip
    rw [classifyAttempts_length]
  rwa [h3] at h2

/-- C1: the claim states `closed_ports == total_ports - open_ports`, but the
source (`port_scan.py` line 35) computes `closed_ports` as
`errors - len(open_ports)`.  On a single-port scan whose attempt succeeds,
the code returns `total_ports = 1`, `open_ports = 1` and
`closed_ports = -1`, whereas the claimed formula gives `0`. -/
theorem C1_closed_ports_failing_input :
    (scan_ports (fun _ _ => Except.ok ()) "h" [80] 1).2.total_ports = 1 ∧
    (scan_ports (fun _ _ => Except.ok ()) "h" [80] 1).2.open_ports = 1 ∧
    (scan_ports (fun _ _ => Except.ok ()) "h" [80] 1).2.closed_ports = -1 ∧
    (scan_ports (fun _ _ => Except.ok ()) "h" [80] 1).2.closed_ports ≠
      ((scan_ports (fun _ _ => Except.ok ()) "h" [80] 1).2.total_ports : Int) -
        ((scan_ports (fun _ _ => Except.ok ()) "h" [80] 1).2.open_ports : Int) := by
  refine ⟨rfl, rfl, rfl, ?_⟩
  decide

/-- C2: for every network behaviour, host, port list and duration, the
`open_port_list` returned by `scan_ports` is a subsequence of the input
ports in original probe order, contains exactly the ports whose attempt was
classified `Open`, and consequently `open_ports ≤ total_ports`. -/
theorem C2_open_port_list (net : String → Nat → Except SockErr Unit) (host : String)
    (ports : List Nat) (d : Rat) :
    (scan_ports net host ports d).1.Sublist ports ∧
    (scan_ports net host ports d).1
      = ((ports.zip (classifyAttempts (net host) 0 ports)).filter
          (fun x => x.2 = PortOutcome.Open)).map Prod.fst ∧
    (scan_ports net host ports d).2.open_ports ≤ (scan_ports net host ports d).2.total_ports := by
  refine ⟨runLoop_open_sublist (net host) 0 ports, runLoop_open_eq_filter (net host) 0 ports, ?_⟩
  show (runLoop (net host) 0 ports).open_ports.length ≤ (runLoop (net host) 0 ports).attempts
  rw [runLoop_partition]
  omega

/-- C3: for every network behaviour, host and port list (duplicates
included), `scan_ports` makes exactly one attempt per element of the list
(the `attempts` counter of the loop equals the list length) and reports
`total_ports` equal to the length of the input list. -/
theorem C3_one_attempt_per_element (net : String → Nat → Except SockErr Unit) (host : String)
    (ports : List Nat) (d : Rat) :
    (scan_ports net host ports d).2.total_ports = ports.length ∧
    (runLoop (net host) 0 ports).attempts = ports.length ∧
    (classifyAttempts (net host) 0 ports).length = ports.length :=
  ⟨runLoop_attempts (net host) 0 ports, runLoop_attempts (net host) 0 ports,
    classifyAttempts_length (net host) 0 ports⟩

/-- C4: for every network behaviour — including one where every attempt
raises a transport error (`net` ranges over all oracles, so over every
pattern of connection-refused, timeout, unreachable and DNS failures) —
`scan_ports` returns a complete result: every attempt receives exactly one
classification, the classifications exhaust the port list (`Open` and
`Unreachable` counts sum to its length), and the reported `total_ports`
accounts for all of them.  The probe is a total function, so no failure of
one attempt aborts the remaining ones. -/
theorem C4_no_exception_escapes (net : String → Nat → Except SockErr Unit) (host : String)
    (ports : List Nat) (d : Rat) :
    (scan_ports net host ports d).2.total_ports
        = (classifyAttempts (net host) 0 ports).length ∧
    countOutcome PortOutcome.Open (classifyAttempts (net host) 0 ports)
        + countOutcome PortOutcome.Unreachable (classifyAttempts (net host) 0 ports)
        = ports.length ∧
    (scan_ports net host ports d).2.total_ports = ports.length := by
  have hc := classifyAttempts_length (net host) 0 ports
  refine ⟨?_, ?_, runLoop_attempts (net host) 0 ports⟩
  · rw [hc]
    exact runLoop_attempts (net host) 0 ports
  · rw [← hc]
    exact countOutcome_total _

/-- C6: `ports_per_second` is `total_ports / scan_duration` when the
measured duration is positive and `0` otherwise; in particular it is `0`
when the duration is `0` (e.g. an empty port list), and the guarded
conditional of `port_scan.py` line 37 never performs a division by a
non-positive duration. -/
theorem C6_ports_per_second (net : String → Nat → Except SockErr Unit) (host : String)
    (ports : List Nat) (d : Rat) :
    (scan_ports net host ports d).2.ports_per_second
        = (if 0 < d then ((scan_ports net host ports d).2.total_ports : Rat) / d else 0) ∧
    (scan_ports net host ports 0).2.ports_per_second = 0 := by
  constructor
  · rfl
  · simp [scan_ports]

/-- C9: every attempt is classified exactly one way, so after the loop the
`attempts` counter equals the count of `Open` attempts plus the count of
error attempts, and the `closed_ports` value the source returns
(`errors - len(open_ports)`) therefore equals
`total_ports - 2 * open_ports`. -/
theorem C9_attempts_partition (net : String → Nat → Except SockErr Unit) (host : String)
    (ports : List Nat) (d : Rat) :
    (runLoop (net host) 0 ports).attempts
        = (runLoop (net host) 0 ports).open_ports.length + (runLoop (net host) 0 ports).errors ∧
    (scan_ports net host ports d).2.closed_ports
        = ((scan_ports net host ports d).2.total_ports : Int)
            - 2 * ((scan_ports net host ports d).2.open_ports : Int) := by
  refine ⟨runLoop_partition (net host) 0 ports, ?_⟩
  show ((runLoop (net host) 0 ports).errors : Int)
      - ((runLoop (net host) 0 ports).open_ports.length : Int)
    = ((runLoop (net host) 0 ports).attempts : Int)
      - 2 * ((runLoop (net host) 0 ports).open_ports.length : Int)
  have h := runLoop_partition (net host) 0 ports
  omega

/-- The observable events of one probe attempt that touch the socket handle
`s` of `port_scan.py` lines 17-29: the socket is created, the connect either
succeeds or raises, and `close` is invoked (on the success path once inside
the `try` and once more in the `finally`; on the failure path in the
`finally`). -/
inductive SockEvent : Type where
  | create
  | connectOk
  | connectFail (e : SockErr)
  | close
  deriving DecidableEq, Repr

/-- State of the handle after one event: `create` makes it open, `close`
makes it closed (closing an already-closed socket is a no-op in Python, not
an error), connect events leave it unchanged. -/
def stepHandle (isOpen : Bool) (ev : SockEvent) : Bool :=
  match ev with
  | SockEvent.create => true
  | SockEvent.close => false
  | _ => isOpen

/-- The event trace of one attempt of the probe loop, by outcome.  Success
(`port_scan.py` lines 18-22 then 29): create, connect, close, and the
`finally` close again.  Failure (lines 18-20, 23-26, 29): create, the
connect raises, and the `finally` close. -/
def attemptEvents (r : Except SockErr Unit) : List SockEvent :=
  match r with
  | Except.ok _ => [SockEvent.create, SockEvent.connectOk, SockEvent.close, SockEvent.close]
  | Except.error e => [SockEvent.create, SockEvent.connectFail e, SockEvent.close]

/-- Whether the handle is open after running a list of events from a given
initial handle state. -/
def handleOpenAfter (isOpen : Bool) (evs : List SockEvent) : Bool :=
  evs.foldl stepHandle isOpen

/-- The full event trace of the probe loop starting at attempt position
`i`: the concatenation of the per-attempt traces, in probe order. -/
def scanEvents (net : Nat → Except SockErr Unit) : Nat → List Nat → List SockEvent
  | _, [] => []
  | i, _ :: rest => attemptEvents (net i) ++ scanEvents net (i + 1) rest

theorem handleOpenAfter_attempt (r : Except SockErr Unit) (b : Bool) :
    handleOpenAfter b (attemptEvents r) = false := by
  cases r <;> rfl

theorem handleOpenAfter_scan_closed (net : Nat → Except SockErr Unit) :
    ∀ (ports : List Nat) (i : Nat),
      handleOpenAfter false (scanEvents net i ports) = false := by
  intro ports
  induction ports with
  | nil => intro i; rfl
  | cons p rest ih =>
      intro i
      show (attemptEvents (net i) ++ scanEvents net (i + 1) rest).foldl stepHandle false = false
      rw [List.foldl_append]
      have h1 : (attemptEvents (net i)).foldl stepHandle false = false :=
        handleOpenAfter_attempt (net i) false
      rw [h1]
      exact ih (i + 1)

/-- C5: whatever the outcome of an attempt — successful connect (where the
socket is closed and then closed again by the `finally` block) or a raised
transport error — the socket handle is closed at the end of the attempt's
event trace, from any prior handle state; consequently, along the whole
probe loop the handle is closed at the end of every attempt, i.e. before
the next attempt begins, and no handle is left open when the loop ends. -/
theorem C5_socket_closed_every_path :
    (∀ (r : Except SockErr Unit) (b : Bool), handleOpenAfter b (attemptEvents r) = false) ∧
    (∀ (net : Nat → Except SockErr Unit) (i : Nat) (p : Nat) (rest : List Nat) (b : Bool),
      handleOpenAfter b (scanEvents net i (p :: rest)) = false) := by
  refine ⟨handleOpenAfter_attempt, ?_⟩
  intro net i p rest b
  show (attemptEvents (net i) ++ scanEvents net (i + 1) rest).foldl stepHandle b = false
  rw [List.foldl_append]
  have h1 : (attemptEvents (net i)).foldl stepHandle b = false :=
    handleOpenAfter_attempt (net i) b
  rw [h1]
  exact handleOpenAfter_scan_closed net rest (i + 1)

/-- The full visible state of `scan_ports` during the loop, with the
`ports` argument itself part of the state so that the frame condition
"`ports` is never written" can be stated: position of the next attempt and
the three loop locals. -/
structure ScanState : Type where
  ports : List Nat
  idx : Nat
  open_ports : List Nat
  attempts : Nat
  errors : Nat
  deriving DecidableEq, Repr

/-- One iteration of the probe loop as a state transformer: read the port
at the current position (the only access to `ports`), classify the attempt,
append to `open_ports` on success, bump the counters, advance.  Past the
end of the list it is the identity. -/
def scanStep (net : Nat → Except SockErr Unit) (st : ScanState) : ScanState :=
  match st.ports.get? st.idx with
  | none => st
  | some p =>
      match net st.idx with
      | Except.ok _ =>
          { st with open_ports := st.open_ports ++ [p], attempts := st.attempts + 1,
                    idx := st.idx + 1 }
      | Except.error _ =>
          { st with attempts := st.attempts + 1, errors := st.errors + 1,
                    idx := st.idx + 1 }

/-- Iterate `scanStep` a given number of times. -/
def scanRunAux (net : Nat → Except SockErr Unit) : Nat → ScanState → ScanState
  | 0, st => st
  | fuel + 1, st => scanRunAux net fuel (scanStep net st)

/-- Run the probe loop to completion from the initial state of
`scan_ports`: `ports` as passed in, position `0`, empty `open_ports`,
zeroed counters. -/
def scanRun (net : Nat → Except SockErr Unit) (ports : List Nat) : ScanState :=
  scanRunAux net ports.length ⟨ports, 0, [], 0, 0⟩

theorem scanStep_ports (net : Nat → Except SockErr Unit) (st : ScanState) :
    (scanStep net st).ports = st.ports := by
  unfold scanStep
  cases st.ports.get? st.idx with
  | none => rfl
  | some p => cases net st.idx <;> rfl

theorem scanRunAux_ports (net : Nat → Except SockErr Unit) :
    ∀ (fuel : Nat) (st : ScanState), (scanRunAux net fuel st).ports = st.ports := by
  intro fuel
  induction fuel with
  | zero => intro st; rfl
  | succ n ih =>
      intro st
      show (scanRunAux net n (scanStep net st)).ports = st.ports
      rw [ih (scanStep net st), scanStep_ports]

theorem get_of_drop_eq_cons :
    ∀ (l : List Nat) (i : Nat) (p : Nat) (rest : List Nat),
      l.drop i = p :: rest → l.get? i = some p ∧ l.drop (i + 1) = rest := by
  intro l
  induction l with
  | nil =>
      intro i p rest h
      simp at h
  | cons x xs ih =>
      intro i p rest h
      cases i with
      | zero =>
          rw [List.drop_zero] at h
          injection h with h1 h2
          subst h1
          subst h2
          exact ⟨rfl, rfl⟩
      | succ j => exact ih j p rest h

/-- Running the step machine from an arbitrary mid-loop state agrees with
the functional probe loop on the remaining suffix of the port list, and the
`ports` component is carried through untouched. -/
theorem scanRunAux_spec (net : Nat → Except SockErr Unit) :
    ∀ (rem : List Nat) (ports : List Nat) (i : Nat) (acc : List Nat) (a e : Nat),
      ports.drop i = rem →
      scanRunAux net rem.length ⟨ports, i, acc, a, e⟩
        = ⟨ports, i + rem.length, acc ++ (runLoop net i rem).open_ports,
            a + (runLoop net i rem).attempts, e + (runLoop net i rem).errors⟩ := by
  intro rem
  induction rem with
  | nil =>
      intro ports i acc a e h
      simp [scanRunAux, runLoop]
  | cons p rest ih =>
      intro ports i acc a e h
      obtain ⟨hget, hdrop⟩ := get_of_drop_eq_cons ports i p rest h
      rw [List.get?_eq_getElem?] at hget
      simp only [List.length_cons, scanRunAux]
      cases hnet : net i with
      | ok u =>
          have hstep : scanStep net ⟨ports, i, acc, a, e⟩ = ⟨ports, i + 1, acc ++ [p], a + 1, e⟩ := by
            simp [scanStep, hget, hnet]
          rw [hstep, ih ports (i + 1) (acc ++ [p]) (a + 1) e hdrop]
          simp only [runLoop, hnet, ScanState.mk.injEq, List.append_assoc,
            List.singleton_append, true_and, and_true]
          omega
      | error err =>
          have hstep : scanStep net ⟨ports, i, acc, a, e⟩ = ⟨ports, i + 1, acc, a + 1, e + 1⟩ := by
            simp [scanStep, hget, hnet]
          rw [hstep, ih ports (i + 1) acc (a + 1) (e + 1) hdrop]
          simp only [runLoop, hnet, ScanState.mk.injEq, true_and, and_true]
          omega

/-- C10: `scan_ports` never writes to its `ports` argument.  Running the
probe loop as a state machine whose state includes `ports` — the loop body
only ever reads the port at the current position — leaves the `ports`
component equal to the input when the loop completes, while producing the
same `open_ports` list and the same `attempts` and `errors` counters as the
probe loop used by `scan_ports`. -/
theorem C10_ports_unmodified (net : Nat → Except SockErr Unit) (ports : List Nat) :
    (scanRun net ports).ports = ports ∧
    (scanRun net ports).open_ports = (runLoop net 0 ports).open_ports ∧
    (scanRun net ports).attempts = (runLoop net 0 ports).attempts ∧
    (scanRun net ports).errors = (runLoop net 0 ports).errors := by
  have h := scanRunAux_spec net ports ports 0 [] 0 0 (by rw [List.drop_zero])
  unfold scanRun
  rw [h]
  simp

/-- The run-level totals computed by `main` (`port_scan.py` lines 75-84):
sums of the per-host stats, the overall wall-clock duration, and the
average rate `total_ports_scanned / total_duration` (which the source
divides without a guard; in `Rat` a zero duration yields `0` instead of the
`ZeroDivisionError` Python would raise — no claim concerns that line). -/
structure RunSummary : Type where
  total_ports_scanned : Nat
  total_open_ports : Nat
  total_duration : Rat
  average_speed : Rat
  deriving DecidableEq, Repr

/-- Python-dictionary assignment `d[k] = v` on a dictionary represented as
an association list in insertion order: an existing key is updated in
place, a new key is appended at the end. -/
def dictInsert {α : Type} (k : String) (v : α) : List (String × α) → List (String × α)
  | [] => [(k, v)]
  | (k', v') :: rest =>
      if k' = k then (k, v) :: rest else (k', v') :: dictInsert k v rest

/-- The `all_stats` dictionary after the host loop of `main`
(`port_scan.py` lines 55-57): one `scan_ports` invocation per host, in
order, each result assigned under the host's key. -/
def allStatsDict (net : String → Nat → Except SockErr Unit) (dur : String → Rat)
    (ports : List Nat) (hosts : List String) : List (String × HostScanStats) :=
  hosts.foldl (fun d h => dictInsert h (scan_ports net h ports (dur h)).2 d) []

/-- The run summary of `main` (`port_scan.py` lines 75-84): totals are the
sums over the values of the `all_stats` dictionary. -/
def mainRun (net : String → Nat → Except SockErr Unit) (dur : String → Rat)
    (hosts : List String) (ports : List Nat) (total_duration : Rat) : RunSummary :=
  let all_stats := allStatsDict net dur ports hosts
  { total_ports_scanned := (all_stats.map (fun kv => kv.2.total_ports)).sum
    total_open_ports := (all_stats.map (fun kv => kv.2.open_ports)).sum
    total_duration := total_duration
    average_speed :=
      (((all_stats.map (fun kv => kv.2.total_ports)).sum : Nat) : Rat) / total_duration }

theorem dictInsert_of_notMem {α : Type} (k : String) (v : α) :
    ∀ d : List (String × α), k ∉ d.map Prod.fst → dictInsert k v d = d ++ [(k, v)] := by
  intro d
  induction d with
  | nil => intro h; rfl
  | cons kv rest ih =>
      intro h
      obtain ⟨k', v'⟩ := kv
      simp only [List.map_cons, List.mem_cons] at h
      push_neg at h
      simp only [dictInsert]
      rw [if_neg (fun he => h.1 he.symm), ih h.2]
      rfl

theorem foldl_dictInsert_eq_map (net : String → Nat → Except SockErr Unit)
    (dur : String → Rat) (ports : List Nat) :
    ∀ (hosts : List String) (acc : List (String × HostScanStats)),
      hosts.Nodup → (∀ h ∈ hosts, h ∉ acc.map Prod.fst) →
      hosts.foldl (fun d h => dictInsert h (scan_ports net h ports (dur h)).2 d) acc
        = acc ++ hosts.map (fun h => (h, (scan_ports net h ports (dur h)).2)) := by
  intro hosts
  induction hosts with
  | nil => intro acc _ _; simp
  | cons h hs ih =>
      intro acc hnd hfresh
      rw [List.nodup_cons] at hnd
      simp only [List.foldl_cons]
      rw [dictInsert_of_notMem h _ acc (hfresh h (List.mem_cons_self h hs))]
      rw [ih (acc ++ [(h, (scan_ports net h ports (dur h)).2)]) hnd.2 ?fresh]
      · simp
      case fresh =>
          intro h' hmem
          simp only [List.map_append, List.mem_append]
          push_neg
          refine ⟨hfresh h' (List.mem_cons_of_mem h hmem), ?_⟩
          simp only [List.map_cons, List.map_nil, List.mem_singleton]
          exact fun he => hnd.1 (he ▸ hmem)

/-- The network of Scenario D: the first host accepts every connect, every
other host refuses every connect. -/
def netScenarioD : String → Nat → Except SockErr Unit :=
  fun h _ => if h = "10.0.0.1" then Except.ok () else Except.error SockErr.refused

/-- A one-second per-host scan duration. -/
def durOne : String → Rat := fun _ => 1

/-- C7: for a run over pairwise-distinct hosts (the per-host results are
keyed by host name, so a duplicated host would overwrite its earlier
entry), the summary's `total_ports_scanned` is the sum of the per-host
`total_ports` and its `total_open_ports` is the sum of the per-host
`open_ports`; and in the concrete two-host run where one host is fully open
on its single configured port and the other fully closed, the summary
reports one open port out of two scanned. -/
theorem C7_run_summary :
    (∀ (net : String → Nat → Except SockErr Unit) (dur : String → Rat)
        (hosts : List String) (ports : List Nat) (td : Rat), hosts.Nodup →
      (mainRun net dur hosts ports td).total_ports_scanned
          = (hosts.map (fun h => (scan_ports net h ports (dur h)).2.total_ports)).sum ∧
      (mainRun net dur hosts ports td).total_open_ports
          = (hosts.map (fun h => (scan_ports net h ports (dur h)).2.open_ports)).sum) ∧
    (mainRun netScenarioD durOne ["10.0.0.1", "10.0.0.2"] [80] 1).total_open_ports = 1 ∧
    (mainRun netScenarioD durOne ["10.0.0.1", "10.0.0.2"] [80] 1).total_ports_scanned = 2 := by
  refine ⟨?_, by decide, by decide⟩
  intro net dur hosts ports td hnd
  have hfold := foldl_dictInsert_eq_map net dur ports hosts [] hnd (by simp)
  constructor
  · show (((allStatsDict net dur ports hosts).map (fun kv => kv.2.total_ports)).sum = _)
    rw [allStatsDict, hfold]
    simp only [List.nil_append, List.map_map]
    rfl
  · show (((allStatsDict net dur ports hosts).map (fun kv => kv.2.open_ports)).sum = _)
    rw [allStatsDict, hfold]
    simp only [List.nil_append, List.map_map]
    rfl

/-- C7 witness: the general part of `C7_run_summary` applied to the
Scenario D run, whose two hosts are distinct. -/
theorem C7_run_summary_witness :
    (["10.0.0.1", "10.0.0.2"] : List String).Nodup ∧
    (mainRun netScenarioD durOne ["10.0.0.1", "10.0.0.2"] [80] 1).total_ports_scanned
        = ((["10.0.0.1", "10.0.0.2"] : List String).map
            (fun h => (scan_ports netScenarioD h [80] (durOne h)).2.total_ports)).sum ∧
    (mainRun netScenarioD durOne ["10.0.0.1", "10.0.0.2"] [80] 1).total_open_ports
        = ((["10.0.0.1", "10.0.0.2"] : List String).map
            (fun h => (scan_ports netScenarioD h [80] (durOne h)).2.open_ports)).sum :=
  ⟨by decide,
    C7_run_summary.1 netScenarioD durOne ["10.0.0.1", "10.0.0.2"] [80] 1 (by decide)⟩

/-- One course record of the prerequisite dataset (`model.py` lines 4-9):
an id, a title, and the ids of its post- and prerequisite courses. -/
structure CoursePrereqs : Type where
  course_id : String
  course_title : String
  postreqs : List String
  prereqs : List String
  deriving DecidableEq, Repr

/-- `get_prereqs_for_course` from `db.py` lines 11-15, with the dataset
(`db.course_data`, loaded once at process start) passed explicitly: scan
the course records in order, return the `prereqs` of the first record whose
`course_id` matches, and return the empty list when none matches. -/
def get_prereqs_for_course (course_data : List CoursePrereqs) (course_id : String) :
    List String :=
  match course_data with
  | [] => []
  | course :: rest =>
      if course.course_id = course_id then course.prereqs
      else get_prereqs_for_course rest course_id

/-- C8: the lookup is total — a list is always returned, so "not found" is
the only failure mode.  When no record carries the requested id the result
is the empty list, and when a record does (the dataset keying courses by id,
so ids are pairwise distinct) the result is exactly that record's stored
prerequisite list. -/
theorem C8_prereq_lookup :
    (∀ (data : List CoursePrereqs) (cid : String),
      (∀ c ∈ data, c.course_id ≠ cid) → get_prereqs_for_course data cid = []) ∧
    (∀ (data : List CoursePrereqs) (cid : String) (c : CoursePrereqs),
      c ∈ data → c.course_id = cid → (data.map CoursePrereqs.course_id).Nodup →
      get_prereqs_for_course data cid = c.prereqs) := by
  constructor
  · intro data cid
    induction data with
    | nil => intro _; rfl
    | cons d rest ih =>
        intro hall
        have h2 : ∀ c ∈ rest, c.course_id ≠ cid :=
          fun c hc => hall c (List.mem_cons_of_mem d hc)
        rw [get_prereqs_for_course,
          if_neg (hall d (List.mem_cons_self d rest)), ih h2]
  · intro data cid c hmem hcid hnd
    induction data with
    | nil => exact absurd hmem (List.not_mem_nil c)
    | cons d rest ih =>
        rw [List.map_cons, List.nodup_cons] at hnd
        rcases List.mem_cons.mp hmem with heq | hrest
        · subst heq
          rw [get_prereqs_for_course, if_pos hcid]
        · have hne : d.course_id ≠ cid := by
            intro he
            exact hnd.1 (he.trans hcid.symm ▸ List.mem_map_of_mem CoursePrereqs.course_id hrest)
          rw [get_prereqs_for_course, if_neg hne]
          exact ih hrest hnd.2

/-- A two-course dataset of the shape `model.parse_course_prereqs`
produces. -/
def sampleCourses : List CoursePrereqs :=
  [⟨"CSE142", "Computer Programming I", ["CSE143"], []⟩,
   ⟨"CSE143", "Computer Programming II", [], ["CSE142"]⟩]

/-- C8 witness: on the sample dataset, an id that is absent yields `[]` and
an id that is present yields its stored prerequisite list, both obtained
through `C8_prereq_lookup`. -/
theorem C8_prereq_lookup_witness :
    ((∀ c ∈ sampleCourses, c.course_id ≠ "MATH126") ∧
      get_prereqs_for_course sampleCourses "MATH126" = []) ∧
    (sampleCourses.map CoursePrereqs.course_id).Nodup ∧
    get_prereqs_for_course sampleCourses "CSE143" = ["CSE142"] :=
  ⟨⟨by decide, C8_prereq_lookup.1 sampleCourses "MATH126" (by decide)⟩,
    by decide,
    C8_prereq_lookup.2 sampleCourses "CSE143"
      ⟨"CSE143", "Computer Programming II", [], ["CSE142"]⟩ (by decide) rfl (by decide)⟩
